import Mathlib

/-!
Shallow embedding of `src/libcalamares/utils/Retranslator.cpp` from the
Calamares installer: locale-name normalization, the three translation
catalog loaders (branding, timezone, application), the singleton
translator registry, and the per-parent retranslation hub.

Qt host facilities (QTranslator::load, QDir::exists, ...) are modelled
by an `Env` of oracles; loader runs additionally return the list of
load attempts / filesystem accesses they performed, so that claims
about "no filesystem access" and "exactly one fallback attempt" are
statable.
-/

/-- Model of `QLocale`: the fields the code reads are `name()`,
`language()` and `script()`.  Language and script are the Qt enum
values, modelled as `Nat`. -/
structure QLocale where
  name : String
  language : Nat
  script : Nat
deriving DecidableEq, Repr

/-- The Qt enum value `QLocale::Language::Serbian`. -/
def QLocale.SerbianLanguage : Nat := 100

/-- The Qt enum value `QLocale::Script::LatinScript`. -/
def QLocale.LatinScript : Nat := 7

/-- Model of `QString::replace( "-", "_" )`: every dash character of
the string becomes an underscore (the pattern and the replacement are
single characters, so occurrence-by-occurrence replacement is a
character map). -/
def dashToUnderscore (s : String) : String :=
  String.mk (s.data.map (fun c => if c = '-' then '_' else c))

/-- Translation of `TranslationLoader::mungeLocaleName`: dash separators become
underscores, the placeholder name "C" becomes "en", and a Serbian
locale with Latin script collapses to the fixed token "sr@latin". -/
def mungeLocaleName (locale : QLocale) : String :=
  let localeName := dashToUnderscore locale.name
  let localeName := if localeName = "C" then "en" else localeName
  if locale.language = QLocale.SerbianLanguage ∧ locale.script = QLocale.LatinScript then
    "sr@latin"
  else
    localeName

example : mungeLocaleName ⟨"en-US", 31, 7⟩ = "en_US" := by decide
example : mungeLocaleName ⟨"C", 1, 0⟩ = "en" := by decide
example : mungeLocaleName ⟨"sr_RS", 100, 7⟩ = "sr@latin" := by decide
example : mungeLocaleName ⟨"fr", 37, 7⟩ = "fr" := by decide

/-- One load attempt / filesystem access performed by a loader:
a plain `QTranslator::load( path )`, a structured
`QTranslator::load( locale, filenameBase, separator, directory )`, or a
`QDir::exists()` query. -/
inductive LoadAttempt where
  | path (p : String)
  | localeFile (locale : QLocale) (filenameBase separator directory : String)
  | dirCheck (directory : String)
deriving DecidableEq, Repr

/-- The Qt host facilities the loaders call, as oracles: `loadPath` is
`QTranslator::load( QString )` (resource or file path), `localeLoad` is
the four-argument `QTranslator::load`, `dirExists` is
`QDir::exists()`, `absolutePath` is `QDir::absolutePath()`, and `sep`
is `QDir::separator()`. -/
structure Env where
  loadPath : String → Bool
  localeLoad : QLocale → String → String → String → Bool
  dirExists : String → Bool
  absolutePath : String → String
  sep : Char

/-- Model of `QString::lastIndexOf( QChar )`: the index of the last
occurrence of `c` in `s`, or `-1` when `c` does not occur. -/
def qlastIndexOf (s : String) (c : Char) : Int :=
  match s.data.reverse.findIdx? (fun x => x = c) with
  | some i => (s.length : Int) - 1 - (i : Int)
  | none => -1

/-- Model of `QString::truncate( pos )`: keep the first `pos`
characters when `pos` is below the length (a negative `pos`, as
produced by `lastIndexOf` failing, truncates to the empty string);
otherwise leave the string alone. -/
def qtruncate (s : String) (pos : Int) : String :=
  if pos < (s.length : Int) then String.mk (s.data.take pos.toNat) else s

/-- Model of `QString::remove( 0, n )`: drop the first `n` characters
(a non-positive `n` removes nothing). -/
def qremoveFront (s : String) (n : Int) : String :=
  String.mk (s.data.drop n.toNat)

example : qlastIndexOf "a/b/c" '/' = 3 := by decide
example : qlastIndexOf "abc" '/' = -1 := by decide
example : qtruncate "a/b/c" 3 = "a/b" := by decide
example : qtruncate "abc" (-1) = "" := by decide
example : qremoveFront "a/b/c" 4 = "c" := by decide
example : qremoveFront "abc" 0 = "abc" := by decide

/-- Translation of `BrandingLoader::tryLoad` (the loader fields are
`m_locale` and the branding path stem; the C++ member is the branding
prefix `m_prefix`, rendered here as `m_pfx`).  Returns the C++ return
value together with the list of load attempts and filesystem accesses
performed, in order. -/
def BrandingLoader.tryLoad (env : Env) (m_locale : QLocale) (m_pfx : String) :
    Bool × List LoadAttempt :=
  if m_pfx.isEmpty then
    (false, [])
  else
    let brandingTranslationsDirPath := qtruncate m_pfx (qlastIndexOf m_pfx env.sep)
    if env.dirExists brandingTranslationsDirPath then
      let filenameBase := qremoveFront m_pfx (qlastIndexOf m_pfx env.sep + 1)
      let dirAbs := env.absolutePath brandingTranslationsDirPath
      let firstAttempt := LoadAttempt.localeFile m_locale filenameBase "_" dirAbs
      if env.localeLoad m_locale filenameBase "_" dirAbs then
        (true, [LoadAttempt.dirCheck brandingTranslationsDirPath, firstAttempt])
      else
        (env.loadPath (m_pfx ++ "en"),
         [LoadAttempt.dirCheck brandingTranslationsDirPath, firstAttempt,
          LoadAttempt.path (m_pfx ++ "en")])
    else
      (false, [LoadAttempt.dirCheck brandingTranslationsDirPath])

/-- Translation of `CalamaresLoader::tryLoad`: try the embedded resource
`:/lang/calamares_<m_localeName>`; on failure fall back to
`:/lang/calamares_en` and return the outcome of that attempt. -/
def CalamaresLoader.tryLoad (env : Env) (m_localeName : String) :
    Bool × List LoadAttempt :=
  if env.loadPath (":/lang/calamares_" ++ m_localeName) then
    (true, [LoadAttempt.path (":/lang/calamares_" ++ m_localeName)])
  else
    (env.loadPath ":/lang/calamares_en",
     [LoadAttempt.path (":/lang/calamares_" ++ m_localeName),
      LoadAttempt.path ":/lang/calamares_en"])

/-- Translation of `TZLoader::tryLoad`: same structure as `CalamaresLoader.tryLoad`
with the `:/lang/tz_` resource stem. -/
def TZLoader.tryLoad (env : Env) (m_localeName : String) :
    Bool × List LoadAttempt :=
  if env.loadPath (":/lang/tz_" ++ m_localeName) then
    (true, [LoadAttempt.path (":/lang/tz_" ++ m_localeName)])
  else
    (env.loadPath ":/lang/tz_en",
     [LoadAttempt.path (":/lang/tz_" ++ m_localeName),
      LoadAttempt.path ":/lang/tz_en"])

/-- A `QTranslator` heap object: its identity (`cid`, the allocation
number standing for the pointer) and whether its `tryLoad` reported a
successful catalog load (`loaded`; a `false` means the object is the
freshly constructed empty catalog). -/
structure Catalog where
  cid : Nat
  loaded : Bool
deriving DecidableEq, Repr

/-- The module-level mutable state of `Retranslator.cpp`: the three
static translator-slot pointers, the static
`s_translatorLocaleName` string, the host translator stack
(`QCoreApplication`-installed catalogs originating from this
subsystem, by identity, in installation order) and the allocation
counter that hands out fresh catalog identities. -/
structure TState where
  s_brandingTranslator : Option Catalog
  s_translator : Option Catalog
  s_tztranslator : Option Catalog
  s_translatorLocaleName : String
  installedStack : List Nat
  nextId : Nat
deriving Repr

/-- The state at program start: the three static pointers are null,
the static `QString` is default-constructed (empty), nothing is
installed in the host stack. -/
def initialState : TState :=
  { s_brandingTranslator := none
    s_translator := none
    s_tztranslator := none
    s_translatorLocaleName := ""
    installedStack := []
    nextId := 0 }

/-- Result of one `loadSingletonTranslator` call: the updated host
stack and allocation counter, and the new catalog now held by the
slot. -/
structure SingletonResult where
  installedStack : List Nat
  nextId : Nat
  translator : Catalog
deriving Repr

/-- Translation of `loadSingletonTranslator( loader, translator_p )`: allocate a
fresh `QTranslator`, run the loader on it (the outcome is recorded in
the catalog, the return value is otherwise discarded); if the slot
held an old catalog, remove it from the host stack and destroy it;
then install the fresh catalog and store it in the slot. -/
def loadSingletonTranslator (tryLoadResult : Bool × List LoadAttempt)
    (slot : Option Catalog) (stack : List Nat) (nextId : Nat) : SingletonResult :=
  let translator : Catalog := { cid := nextId, loaded := tryLoadResult.1 }
  let stackAfterRemove :=
    match slot with
    | some old => stack.erase old.cid
    | none => stack
  { installedStack := stackAfterRemove ++ [translator.cid]
    nextId := nextId + 1
    translator := translator }

/-- Translation of `CalamaresUtils::installTranslator`, whose C++
arguments are the locale, the branding translations prefix (rendered
here as `brandingPfx`) and a parent object: swap the branding,
timezone and application slots (in that order) through
`loadSingletonTranslator`, then record the application loader's
munged locale name.  The `parent` argument (modelled by its pointer
value) appears in the C++ signature but is never read. -/
def installTranslator (env : Env) (locale : QLocale) (brandingPfx : String)
    (parent : Nat) (st : TState) : TState :=
  let r1 := loadSingletonTranslator (BrandingLoader.tryLoad env locale brandingPfx)
      st.s_brandingTranslator st.installedStack st.nextId
  let r2 := loadSingletonTranslator (TZLoader.tryLoad env (mungeLocaleName locale))
      st.s_tztranslator r1.installedStack r1.nextId
  let r3 := loadSingletonTranslator (CalamaresLoader.tryLoad env (mungeLocaleName locale))
      st.s_translator r2.installedStack r2.nextId
  { s_brandingTranslator := some r1.translator
    s_tztranslator := some r2.translator
    s_translator := some r3.translator
    s_translatorLocaleName := mungeLocaleName locale
    installedStack := r3.installedStack
    nextId := r3.nextId }

/-- Translation of `CalamaresUtils::translatorLocaleName()`. -/
def translatorLocaleName (st : TState) : String :=
  st.s_translatorLocaleName

/-- The arguments of one `installTranslator` call (with the host
environment the loaders will consult during it). -/
structure InstallCall where
  env : Env
  locale : QLocale
  brandingPfx : String
  parent : Nat

/-- Run a sequence of `installTranslator` calls from a state. -/
def runCalls (calls : List InstallCall) (st : TState) : TState :=
  calls.foldl (fun s c => installTranslator c.env c.locale c.brandingPfx c.parent s) st

/-- A child `QObject` of the parent, as `retranslatorFor` sees it: its
identity and whether `qobject_cast< Retranslator* >` on it is non-null. -/
structure Obj where
  oid : Nat
  isRetranslator : Bool
deriving DecidableEq, Repr

/-- The part of the `QObject` world that `retranslatorFor( parent )`
and `attachRetranslator` read and write for one fixed parent: the
parent's direct children in order, the observers installed by
`parent->installEventFilter(...)` in order, each object's
`m_retranslateFuncList` (callbacks modelled by identifying labels),
and the allocation counter for fresh object identities. -/
structure QObjectSys where
  children : List Obj
  eventFilters : List Nat
  funcLists : Nat → List Nat
  nextId : Nat

/-- Translation of `Retranslator::retranslatorFor( parent )`: scan the parent's
children for the first one that casts to a `Retranslator` and return
it; otherwise run the constructor `Retranslator( parent )`, which
parents the new object (appending it to the children) and installs it
as an event filter on the parent.  Returns the identity of the
Retranslator and the updated object world. -/
def retranslatorFor (sys : QObjectSys) : Nat × QObjectSys :=
  match sys.children.find? (fun child => child.isRetranslator) with
  | some r => (r.oid, sys)
  | none =>
      (sys.nextId,
       { children := sys.children ++ [{ oid := sys.nextId, isRetranslator := true }]
         eventFilters := sys.eventFilters ++ [sys.nextId]
         funcLists := sys.funcLists
         nextId := sys.nextId + 1 })

/-- An observable action of the retranslation hub: one callback
invocation, or the emission of the `languageChange` signal. -/
inductive TraceEvent where
  | invoke (func : Nat)
  | emitLanguageChange
deriving DecidableEq, Repr

/-- Translation of `Retranslator::attachRetranslator( parent, retranslateFunc )`:
append the callback to the parent's Retranslator's
`m_retranslateFuncList`, then invoke it once.  Returns the updated
object world and the trace of callback invocations performed by the
call itself. -/
def attachRetranslator (sys : QObjectSys) (retranslateFunc : Nat) :
    QObjectSys × List TraceEvent :=
  let r := (retranslatorFor sys).1
  let sys1 := (retranslatorFor sys).2
  ({ sys1 with
      funcLists := fun i =>
        if i = r then sys1.funcLists i ++ [retranslateFunc] else sys1.funcLists i },
   [TraceEvent.invoke retranslateFunc])

/-- The kind of a delivered `QEvent`, as `eventFilter` inspects it. -/
inductive QEventType where
  | languageChange
  | other (n : Nat)
deriving DecidableEq, Repr

/-- The state of one `Retranslator` object that `eventFilter` reads:
the identity of its `parent()` and its `m_retranslateFuncList` in
insertion order. -/
structure RState where
  parentId : Nat
  m_retranslateFuncList : List Nat
deriving DecidableEq, Repr

/-- Translation of `Retranslator::eventFilter( obj, e )`: when the event is delivered
to the parent and is a LanguageChange, invoke every registered
callback in order and then emit `languageChange`; in every case pass
the event on to `QObject::eventFilter`, whose result
(`defaultResult`) is returned unchanged.  The first component is the
trace of actions performed. -/
def eventFilter (r : RState) (obj : Nat) (etype : QEventType) (defaultResult : Bool) :
    List TraceEvent × Bool :=
  let trace :=
    if obj = r.parentId then
      if etype = QEventType.languageChange then
        r.m_retranslateFuncList.map TraceEvent.invoke ++ [TraceEvent.emitLanguageChange]
      else
        []
    else
      []
  (trace, defaultResult)

/-- An environment in which every catalog load fails and no directory
exists (used to instantiate universally quantified statements at a
concrete host). -/
def envAllFail : Env :=
  { loadPath := fun _ => false
    localeLoad := fun _ _ _ _ => false
    dirExists := fun _ => false
    absolutePath := fun s => s
    sep := '/' }

/-- The stack contribution of one translator slot. -/
def optIds : Option Catalog → List Nat
  | some c => [c.cid]
  | none => []

/-- The catalogs the three slots currently hold, in the order in which
`installTranslator` refreshes the slots (branding, timezone,
application). -/
def slotIds (st : TState) : List Nat :=
  optIds st.s_brandingTranslator ++ optIds st.s_tztranslator ++ optIds st.s_translator

/-- Registry invariant: the host stack holds exactly the catalogs of
the three slots. -/
def StackInv (st : TState) : Prop :=
  st.installedStack = slotIds st

/-- C1: after `installTranslator( L, brandingPfx, parent )` returns,
`translatorLocaleName()` is exactly `mungeLocaleName L`, for every
host environment — hence independently of whether any of the primary
or fallback catalog load attempts succeeded. -/
theorem installTranslator_sets_localeName :
    ∀ (env : Env) (locale : QLocale) (brandingPfx : String) (parent : Nat) (st : TState),
      translatorLocaleName (installTranslator env locale brandingPfx parent st)
        = mungeLocaleName locale := by
  intro env locale brandingPfx parent st
  rfl

/-- C2: `mungeLocaleName` normalization rules — a Serbian locale with
Latin script always maps to "sr@latin"; otherwise the name "C" maps to
"en"; any other name is returned with every dash turned into an
underscore and otherwise unchanged; the output never contains a dash;
and the four concrete instances from the specification hold. -/
theorem mungeLocaleName_normalization :
    (∀ loc : QLocale,
        loc.language = QLocale.SerbianLanguage → loc.script = QLocale.LatinScript →
        mungeLocaleName loc = "sr@latin") ∧
    (∀ loc : QLocale,
        ¬(loc.language = QLocale.SerbianLanguage ∧ loc.script = QLocale.LatinScript) →
        loc.name = "C" →
        mungeLocaleName loc = "en") ∧
    (∀ loc : QLocale,
        ¬(loc.language = QLocale.SerbianLanguage ∧ loc.script = QLocale.LatinScript) →
        dashToUnderscore loc.name ≠ "C" →
        mungeLocaleName loc = dashToUnderscore loc.name) ∧
    (∀ loc : QLocale, ('-' : Char) ∉ (mungeLocaleName loc).data) ∧
    mungeLocaleName ⟨"en-US", 31, 7⟩ = "en_US" ∧
    mungeLocaleName ⟨"C", 1, 0⟩ = "en" ∧
    mungeLocaleName ⟨"sr_RS", 100, 7⟩ = "sr@latin" ∧
    mungeLocaleName ⟨"fr", 37, 7⟩ = "fr" := by
  refine ⟨?_, ?_, ?_, ?_, by decide, by decide, by decide, by decide⟩
  · intro loc h1 h2
    simp [mungeLocaleName, h1, h2]
  · intro loc h hC
    simp only [mungeLocaleName, hC, if_neg h]
    have : dashToUnderscore "C" = "C" := by decide
    simp [this]
  · intro loc h hC
    simp [mungeLocaleName, if_neg h, hC]
  · intro loc
    simp only [mungeLocaleName]
    split
    · decide
    · split
      · decide
      · intro hmem
        rcases List.mem_map.mp hmem with ⟨c, _, hc⟩
        by_cases hd : c = '-'
        · rw [if_pos hd] at hc
          exact absurd hc (by decide)
        · rw [if_neg hd] at hc
          exact hd hc

/-- C9: the `parent` argument of `installTranslator` is never read:
two calls agreeing on everything but the parent produce identical
states (slots, installed catalogs and locale name included). -/
theorem installTranslator_parent_unused :
    ∀ (env : Env) (locale : QLocale) (brandingPfx : String) (p1 p2 : Nat) (st : TState),
      installTranslator env locale brandingPfx p1 st
        = installTranslator env locale brandingPfx p2 st := by
  intro env locale brandingPfx p1 p2 st
  rfl

/-- C10: before the first `installTranslator` call — that is, in the
default-initialized module state — `translatorLocaleName()` returns
the empty string. -/
theorem translatorLocaleName_initial : translatorLocaleName initialState = "" := rfl

/-- Witness for C2: the Serbian-Latin, "C" and dash-rewriting branches
of `mungeLocaleName_normalization` instantiated at concrete locales. -/
theorem mungeLocaleName_normalization_witness :
    mungeLocaleName ⟨"sr_Cyrl_RS", 100, 7⟩ = "sr@latin" ∧
    mungeLocaleName ⟨"C", 1, 0⟩ = "en" ∧
    mungeLocaleName ⟨"de-AT", 42, 7⟩ = "de_AT" :=
  ⟨mungeLocaleName_normalization.1 ⟨"sr_Cyrl_RS", 100, 7⟩ rfl rfl,
   mungeLocaleName_normalization.2.1 ⟨"C", 1, 0⟩ (by decide) rfl,
   (mungeLocaleName_normalization.2.2.1 ⟨"de-AT", 42, 7⟩ (by decide) (by decide)).trans
     (by decide)⟩

/-- C6: if the primary load of `:/lang/calamares_<mungeLocaleName L>`
fails, `CalamaresLoader::tryLoad` makes exactly one further attempt,
at `:/lang/calamares_en`, and returns that attempt's outcome; if the
primary load succeeds it returns true with no fallback attempt. -/
theorem calamaresLoader_fallback :
    ∀ (env : Env) (locale : QLocale),
      (env.loadPath (":/lang/calamares_" ++ mungeLocaleName locale) = false →
        CalamaresLoader.tryLoad env (mungeLocaleName locale)
          = (env.loadPath ":/lang/calamares_en",
             [LoadAttempt.path (":/lang/calamares_" ++ mungeLocaleName locale),
              LoadAttempt.path ":/lang/calamares_en"])) ∧
      (env.loadPath (":/lang/calamares_" ++ mungeLocaleName locale) = true →
        CalamaresLoader.tryLoad env (mungeLocaleName locale)
          = (true, [LoadAttempt.path (":/lang/calamares_" ++ mungeLocaleName locale)])) := by
  intro env locale
  constructor
  · intro h
    simp [CalamaresLoader.tryLoad, h]
  · intro h
    simp [CalamaresLoader.tryLoad, h]

/-- Witness for C6: in the all-fail environment the loader for locale
"zz-ZZ" attempts the primary resource, then exactly the fallback, and
returns the fallback's (false) outcome. -/
theorem calamaresLoader_fallback_witness :
    CalamaresLoader.tryLoad envAllFail (mungeLocaleName ⟨"zz-ZZ", 0, 0⟩)
      = (false, [LoadAttempt.path ":/lang/calamares_zz_ZZ",
                 LoadAttempt.path ":/lang/calamares_en"]) :=
  ((calamaresLoader_fallback envAllFail ⟨"zz-ZZ", 0, 0⟩).1 rfl).trans (by decide)

/-- A catalog already on the stack survives a `loadSingletonTranslator`
call whose slot does not hold it. -/
theorem mem_stack_loadSingletonTranslator (tr : Bool × List LoadAttempt)
    (slot : Option Catalog) (stack : List Nat) (nid : Nat) (a : Nat)
    (ha : a ∈ stack) (hne : ∀ c, slot = some c → a ≠ c.cid) :
    a ∈ (loadSingletonTranslator tr slot stack nid).installedStack := by
  cases hs : slot with
  | none =>
      simp only [loadSingletonTranslator]
      exact List.mem_append.mpr (Or.inl ha)
  | some c =>
      simp only [loadSingletonTranslator]
      exact List.mem_append.mpr (Or.inl ((List.mem_erase_of_ne (hne c hs)).mpr ha))

/-- The catalog freshly allocated by `loadSingletonTranslator` is on
the resulting stack. -/
theorem self_mem_loadSingletonTranslator (tr : Bool × List LoadAttempt)
    (slot : Option Catalog) (stack : List Nat) (nid : Nat) :
    nid ∈ (loadSingletonTranslator tr slot stack nid).installedStack := by
  cases slot <;> simp [loadSingletonTranslator]

/-- C7: with an empty branding path stem, `BrandingLoader::tryLoad`
returns false having performed no load attempt and no filesystem
access; `installTranslator` nevertheless replaces the branding slot
with the freshly allocated empty catalog, and (whenever the other two
slots do not already claim the fresh identity, as in every reachable
state) that catalog is installed on the host stack. -/
theorem brandingEmptyStem_spec :
    ∀ (env : Env) (locale : QLocale) (parent : Nat) (st : TState),
      BrandingLoader.tryLoad env locale "" = (false, []) ∧
      (installTranslator env locale "" parent st).s_brandingTranslator
        = some { cid := st.nextId, loaded := false } ∧
      ((∀ c, st.s_tztranslator = some c → st.nextId ≠ c.cid) →
       (∀ c, st.s_translator = some c → st.nextId ≠ c.cid) →
        st.nextId ∈ (installTranslator env locale "" parent st).installedStack) := by
  intro env locale parent st
  refine ⟨rfl, rfl, ?_⟩
  intro h1 h2
  simp only [installTranslator]
  apply mem_stack_loadSingletonTranslator _ _ _ _ _ _ h2
  apply mem_stack_loadSingletonTranslator _ _ _ _ _ _ h1
  exact self_mem_loadSingletonTranslator _ _ _ _

/-- Witness for C7: from the initial state, installing with an empty
branding path stem yields the fresh empty catalog in the branding slot
and on the stack. -/
theorem brandingEmptyStem_witness :
    BrandingLoader.tryLoad envAllFail ⟨"fr", 37, 7⟩ "" = (false, []) ∧
    (installTranslator envAllFail ⟨"fr", 37, 7⟩ "" 0 initialState).s_brandingTranslator
      = some { cid := 0, loaded := false } ∧
    0 ∈ (installTranslator envAllFail ⟨"fr", 37, 7⟩ "" 0 initialState).installedStack := by
  have h := brandingEmptyStem_spec envAllFail ⟨"fr", 37, 7⟩ 0 initialState
  exact ⟨h.1, h.2.1,
         h.2.2 (fun c hc => by simp [initialState] at hc)
               (fun c hc => by simp [initialState] at hc)⟩

/-- C5: `retranslatorFor` is idempotent — a second call on the state
left by the first returns the same Retranslator identity and leaves
the object world unchanged, so there is at most one Retranslator per
parent. -/
theorem retranslatorFor_idempotent :
    ∀ sys : QObjectSys,
      retranslatorFor (retranslatorFor sys).2
        = ((retranslatorFor sys).1, (retranslatorFor sys).2) := by
  intro sys
  cases h : sys.children.find? (fun child => child.isRetranslator) with
  | some r =>
      simp [retranslatorFor, h]
  | none =>
      simp [retranslatorFor, h, List.find?_append]

/-- Helper: `retranslatorFor` never changes any object's callback list. -/
theorem retranslatorFor_funcLists :
    ∀ sys : QObjectSys, ((retranslatorFor sys).2).funcLists = sys.funcLists := by
  intro sys
  cases h : sys.children.find? (fun child => child.isRetranslator) <;>
    simp [retranslatorFor, h]

/-- C8: `attachRetranslator( P, f )` invokes `f` exactly once,
synchronously, before returning (the call's own trace is exactly one
invocation of `f`), and appends `f` to the end of the callback
sequence of P's Retranslator. -/
theorem attachRetranslator_spec :
    ∀ (sys : QObjectSys) (retranslateFunc : Nat),
      (attachRetranslator sys retranslateFunc).2
        = [TraceEvent.invoke retranslateFunc] ∧
      ((attachRetranslator sys retranslateFunc).1).funcLists (retranslatorFor sys).1
        = sys.funcLists (retranslatorFor sys).1 ++ [retranslateFunc] := by
  intro sys retranslateFunc
  refine ⟨rfl, ?_⟩
  simp [attachRetranslator, retranslatorFor_funcLists]

/-- C3: `eventFilter` returns the default handler's result in every
case; on a LanguageChange event delivered to the very parent, the
trace is every registered callback invoked once (each entry of
`m_retranslateFuncList`, in insertion order) followed by exactly one
`languageChange` emission; for any other object or event kind the
trace is empty. -/
theorem eventFilter_spec :
    ∀ (r : RState) (obj : Nat) (etype : QEventType) (defaultResult : Bool),
      (eventFilter r obj etype defaultResult).2 = defaultResult ∧
      (obj = r.parentId → etype = QEventType.languageChange →
        (eventFilter r obj etype defaultResult).1
          = r.m_retranslateFuncList.map TraceEvent.invoke
              ++ [TraceEvent.emitLanguageChange] ∧
        ((eventFilter r obj etype defaultResult).1).count TraceEvent.emitLanguageChange
          = 1 ∧
        (∀ func : Nat,
          ((eventFilter r obj etype defaultResult).1).count (TraceEvent.invoke func)
            = r.m_retranslateFuncList.count func)) ∧
      (¬(obj = r.parentId ∧ etype = QEventType.languageChange) →
        (eventFilter r obj etype defaultResult).1 = []) := by
  intro r obj etype defaultResult
  refine ⟨rfl, ?_, ?_⟩
  · intro hobj hev
    have htrace : (eventFilter r obj etype defaultResult).1
        = r.m_retranslateFuncList.map TraceEvent.invoke
            ++ [TraceEvent.emitLanguageChange] := by
      simp [eventFilter, hobj, hev]
    refine ⟨htrace, ?_, ?_⟩
    · rw [htrace, List.count_append]
      have hz : (r.m_retranslateFuncList.map TraceEvent.invoke).count
          TraceEvent.emitLanguageChange = 0 := by
        refine List.count_eq_zero.mpr ?_
        intro hmem
        rcases List.mem_map.mp hmem with ⟨x, _, hx⟩
        exact TraceEvent.noConfusion hx
      rw [hz]
      rfl
    · intro func
      rw [htrace, List.count_append,
          List.count_map_of_injective r.m_retranslateFuncList TraceEvent.invoke
            (fun a b hab => by injection hab) func]
      simp
  · intro hno
    rcases Decidable.not_and_iff_or_not.mp hno with h | h <;>
      simp [eventFilter, h]

/-- Witness for C3: a Retranslator on parent 5 with callbacks [1, 2]
runs both callbacks then emits once on a LanguageChange delivered to
object 5, and does nothing for object 7; the default result is
returned. -/
theorem eventFilter_spec_witness :
    (eventFilter ⟨5, [1, 2]⟩ 5 QEventType.languageChange true).2 = true ∧
    (eventFilter ⟨5, [1, 2]⟩ 5 QEventType.languageChange true).1
      = [TraceEvent.invoke 1, TraceEvent.invoke 2, TraceEvent.emitLanguageChange] ∧
    (eventFilter ⟨5, [1, 2]⟩ 7 QEventType.languageChange true).1 = [] := by
  have h := eventFilter_spec ⟨5, [1, 2]⟩ 5 QEventType.languageChange true
  have hother := eventFilter_spec ⟨5, [1, 2]⟩ 7 QEventType.languageChange true
  exact ⟨h.1, ((h.2.1 rfl rfl).1).trans (by decide), hother.2.2 (by decide)⟩

/-- Helper: `installTranslator` preserves the registry invariant. -/
theorem stackInv_installTranslator (env : Env) (locale : QLocale)
    (brandingPfx : String) (parent : Nat) (st : TState) (h : StackInv st) :
    StackInv (installTranslator env locale brandingPfx parent st) := by
  unfold StackInv slotIds at h ⊢
  cases hbr : st.s_brandingTranslator <;> cases htz : st.s_tztranslator <;>
    cases htr : st.s_translator <;>
      simp [hbr, htz, htr, optIds] at h <;>
        simp [installTranslator, loadSingletonTranslator, hbr, htz, htr, optIds, h]

/-- The registry invariant holds along every call sequence from the
initial state. -/
theorem stackInv_runCalls (calls : List InstallCall) :
    ∀ st : TState, StackInv st → StackInv (runCalls calls st) := by
  induction calls with
  | nil => intro st h; exact h
  | cons c rest ih =>
      intro st h
      exact ih _ (stackInv_installTranslator c.env c.locale c.brandingPfx c.parent st h)

/-- Each slot contributes at most one catalog. -/
theorem optIds_length_le (o : Option Catalog) : (optIds o).length ≤ 1 := by
  cases o <;> simp [optIds]

/-- C4: after any sequence of `installTranslator` calls from program
start, at most three catalogs originating from this subsystem are
installed in the host translator stack (each slot's previous catalog
is removed from the stack before its replacement is appended). -/
theorem installedStack_bounded :
    ∀ calls : List InstallCall,
      ((runCalls calls initialState).installedStack).length ≤ 3 := by
  intro calls
  have hinv : StackInv (runCalls calls initialState) :=
    stackInv_runCalls calls initialState rfl
  rw [hinv]
  unfold slotIds
  have h1 := optIds_length_le (runCalls calls initialState).s_brandingTranslator
  have h2 := optIds_length_le (runCalls calls initialState).s_tztranslator
  have h3 := optIds_length_le (runCalls calls initialState).s_translator
  simp only [List.length_append]
  omega

